import Mathlib

/-!
Shallow embedding of the Chart-of-nuclides-drawer nuclear-data pipeline
(`Nuclide.py`, `Nwc2xml.py`, `Nubase12_2xml.py`).

Python strings are modelled as `List Char`; Python string methods
(`strip`, `split`, `replace`, `lower`, `count`, `in`) are embedded below
with Python semantics.  Fallible Python code (raised exceptions) is
modelled with `Except PyErr`.
-/

namespace Drawer

/-- A Python string, modelled as its list of characters. -/
abbrev Str := List Char

/-- Coercion from Lean string literals to the embedding's strings. -/
def str (s : String) : Str := s.data

/-- The exception kinds raised by the embedded code. -/
inductive PyErr where
  /-- `ParameterError` from `Nuclide.py`. -/
  | paramError
  /-- Python built-in `ValueError`. -/
  | valueError
  /-- Python built-in `TypeError`. -/
  | typeError
  /-- Python built-in `KeyError` (missing dictionary key). -/
  | keyError
  /-- Python built-in `IndexError`. -/
  | indexError
  /-- Python built-in `NameError` (unbound local variable). -/
  | nameError
  deriving DecidableEq, Repr

deriving instance DecidableEq for Except

/-- Python whitespace characters, as used by `str.strip()`/`str.split()`. -/
def isWs (c : Char) : Bool :=
  c == ' ' || c == '\t' || c == '\n' || c == '\x0d' || c == '\x0b' || c == '\x0c'

/-- `s.lstrip()` restricted to whitespace. -/
def stripLeftWs (l : Str) : Str := l.dropWhile isWs

/-- Python `s.strip()` (no arguments): remove whitespace from both ends. -/
def pyStrip (l : Str) : Str :=
  ((stripLeftWs l.reverse).reverse).dropWhile isWs

/-- Python `s.strip(chars)`: remove any of the given characters from both ends. -/
def pyStripChars (cs : List Char) (l : Str) : Str :=
  (((l.dropWhile (fun c => c ∈ cs)).reverse.dropWhile (fun c => c ∈ cs))).reverse

/-- Lower-casing of one character as Python's `str.lower()` acts on the
ASCII data found in these tables. -/
def pyLowerChar (c : Char) : Char := c.toLower

/-- Python `s.lower()`. -/
def pyLower (l : Str) : Str := l.map pyLowerChar

/-- Auxiliary for `pySplitWs`: `acc` is the (reversed) token being read. -/
def pySplitWsAux : Str → Str → List Str
  | [], acc => if acc = [] then [] else [acc.reverse]
  | c :: cs, acc =>
    if isWs c then
      if acc = [] then pySplitWsAux cs []
      else acc.reverse :: pySplitWsAux cs []
    else pySplitWsAux cs (c :: acc)

/-- Python `s.split()` (no argument): split on whitespace runs, dropping
empty tokens. -/
def pySplitWs (l : Str) : List Str := pySplitWsAux l []

/-- Python `s.split(sep)` for a one-character separator: keeps empty parts,
always returns at least one part. -/
def pySplitOn (sep : Char) : Str → List Str
  | [] => [[]]
  | c :: cs =>
    if c = sep then [] :: pySplitOn sep cs
    else
      match pySplitOn sep cs with
      | t :: ts => (c :: t) :: ts
      | [] => [[c]]

/-- Python `pat in s` (also `re.search` for a literal pattern): substring test. -/
def containsSub (pat : Str) : Str → Bool
  | [] => pat.isEmpty
  | c :: cs => pat.isPrefixOf (c :: cs) || containsSub pat cs

/-- Fuel-driven worker for `replaceSub`; the fuel is an upper bound on the
length of the subject string. -/
def replaceSubF (pat rep : Str) : Nat → Str → Str
  | 0, l => l
  | _ + 1, [] => []
  | fuel + 1, c :: cs =>
    if pat ≠ [] ∧ pat.isPrefixOf (c :: cs) then
      rep ++ replaceSubF pat rep fuel (cs.drop (pat.length - 1))
    else
      c :: replaceSubF pat rep fuel cs

/-- Python `s.replace(pat, rep)` (also `re.sub` for a literal pattern):
replace every non-overlapping occurrence, scanning left to right. -/
def replaceSub (pat rep l : Str) : Str := replaceSubF pat rep l.length l

/-- Python `s.replace(a, b)` for single characters. -/
def replaceChar (a b : Char) (l : Str) : Str :=
  l.map (fun c => if c = a then b else c)

/-- The relation characters of the regex `'(=|~|>|<|≤|≥)'` in
`NuclideNb03._parse_decay_modes`. -/
def isRel (c : Char) : Bool :=
  c == '=' || c == '~' || c == '>' || c == '<' || c == '≤' || c == '≥'

/-- `re.split('(=|~|>|<|≤|≥)', s)`: split at every relation
character, keeping each separator as its own part (capturing group). -/
def reSplitRel : Str → List Str
  | [] => [[]]
  | c :: cs =>
    if isRel c then
      [] :: [c] :: reSplitRel cs
    else
      match reSplitRel cs with
      | t :: ts => (c :: t) :: ts
      | [] => [[c]]

/-- Decimal digits of a natural number (fuel-driven so that it reduces). -/
def natToStrAux : Nat → Nat → Str
  | 0, _ => []
  | fuel + 1, n =>
    if n < 10 then [Char.ofNat (48 + n)]
    else natToStrAux fuel (n / 10) ++ [Char.ofNat (48 + n % 10)]

/-- Decimal representation of a natural number. -/
def natToStr (n : Nat) : Str := natToStrAux (n + 1) n

/-- Python `str(i)` for an integer. -/
def intToStr (n : ℤ) : Str :=
  if n < 0 then '-' :: natToStr n.natAbs else natToStr n.natAbs

/-- Value of a decimal digit string (left fold). -/
def digitsVal (l : Str) : Nat :=
  l.foldl (fun acc c => acc * 10 + (c.toNat - 48)) 0

/-- Python `int(s)` on a string: optional surrounding whitespace, optional
sign, then one or more decimal digits; anything else raises `ValueError`. -/
def pyIntOfStr (l : Str) : Except PyErr ℤ :=
  let t := pyStrip l
  let (sign, digits) : ℤ × Str :=
    match t with
    | '-' :: rest => (-1, rest)
    | '+' :: rest => (1, rest)
    | _ => (1, t)
  if digits ≠ [] ∧ digits.all (fun c => c.isDigit) then
    .ok (sign * (digitsVal digits : ℤ))
  else
    .error .valueError

/-- Python `d.get(k)` on a dictionary modelled as an association list. -/
def dictGet {α : Type} (d : List (Str × α)) (k : Str) : Option α :=
  match d with
  | [] => none
  | (k2, v) :: rest => if k2 = k then some v else dictGet rest k

/-! ## Data model (`Nuclide.py`)

The values stored in the record dictionaries of `Nuclide` are either
strings (from the ascii parsers and the xml reader), booleans
(extrapolation flags) or integers. -/

/-- A Python value as stored in the nuclide sub-record dictionaries. -/
inductive PVal where
  | s (v : Str)
  | b (v : Bool)
  | i (v : ℤ)
  deriving DecidableEq, Repr

/-- Python `str(v)` for the values above. -/
def pyStrOf (v : PVal) : Str :=
  match v with
  | .s v => v
  | .b v => if v then str "True" else str "False"
  | .i v => intToStr v

/-- Python `int(v)` for the values above (`int` of a bad string raises
`ValueError`). -/
def pyIntOf (v : PVal) : Except PyErr ℤ :=
  match v with
  | .s v => pyIntOfStr v
  | .b v => .ok (if v then 1 else 0)
  | .i v => .ok v

/-- The validated `mass_defect` record `{value, uncertainity, extrapolated}`. -/
structure MassDefect where
  value : PVal
  uncertainity : PVal
  extrapolated : PVal
  deriving DecidableEq, Repr

/-- The validated `half_life` record
`{value, unit, uncertainity, relation, extrapolated}`. -/
structure HalfLife where
  value : PVal
  unit : PVal
  uncertainity : PVal
  relation : PVal
  extrapolated : PVal
  deriving DecidableEq, Repr

/-- The validated `gs_spin` record `{value, extrapolated}`. -/
structure GsSpin where
  value : PVal
  extrapolated : PVal
  deriving DecidableEq, Repr

/-- The validated decay-mode record `{mode, relation, value, uncertainity}`. -/
structure DecayMode where
  mode : PVal
  relation : PVal
  value : PVal
  uncertainity : PVal
  deriving DecidableEq, Repr

/-- An isomer record.  `add_isomer` never checks the `comment` key, so a
stored isomer may lack it; the missing key is modelled by `none`. -/
structure Isomer where
  energy : PVal
  uncertainity : PVal
  extrapolated : PVal
  half_life : HalfLife
  decay_modes : List DecayMode
  comment : Option PVal
  deriving DecidableEq, Repr

/-- The `Nuclide` object.  An empty sub-record dictionary (`{}`, produced
when `None` is assigned) is modelled by `none`. -/
structure Nuclide where
  Z : ℤ
  A : ℤ
  mass_defect : Option MassDefect
  half_life : Option HalfLife
  gs_spin : Option GsSpin
  decay_modes : List DecayMode
  isomers : List Isomer
  comment : Str
  deriving DecidableEq, Repr

/-! Incoming dictionaries, before validation: each expected key may be
absent (`none`), which is what the setters' `d.get(key) is None` checks
reject. -/

/-- An unchecked `mass_defect` dictionary. -/
structure MassDefectDict where
  value : Option PVal
  uncertainity : Option PVal
  extrapolated : Option PVal
  deriving DecidableEq, Repr

/-- An unchecked `half_life` dictionary. -/
structure HalfLifeDict where
  value : Option PVal
  unit : Option PVal
  uncertainity : Option PVal
  relation : Option PVal
  extrapolated : Option PVal
  deriving DecidableEq, Repr

/-- An unchecked `gs_spin` dictionary. -/
structure GsSpinDict where
  value : Option PVal
  extrapolated : Option PVal
  deriving DecidableEq, Repr

/-- An unchecked decay-mode dictionary. -/
structure DecayModeDict where
  mode : Option PVal
  relation : Option PVal
  value : Option PVal
  uncertainity : Option PVal
  deriving DecidableEq, Repr

/-- An unchecked isomer dictionary, as passed to `add_isomer`.  There is
no `comment` entry in the required-key checks, so `comment` stays
optional all the way through. -/
structure IsomerDict where
  energy : Option PVal
  uncertainity : Option PVal
  extrapolated : Option PVal
  half_life : Option HalfLifeDict
  decay_modes : Option (List DecayModeDict)
  comment : Option PVal
  deriving DecidableEq, Repr

/-! ## Unit tables and the element table -/

/-- A value of the time-unit dictionaries: either a numeric factor or a
descriptive word. -/
inductive UnitVal where
  | q (v : ℚ)
  | w (v : Str)
  deriving DecidableEq, Repr

/-- `Nuclide._short_time_units`. -/
def shortTimeUnits : List (Str × UnitVal) :=
  [ (str "d", .q 86400),
    (str "h", .q 3600),
    (str "m", .q 60),
    (str "s", .q 1),
    (str "ms", .q (1 / 1000)),
    (str "us", .q (1 / 1000000)),
    (str "ns", .q (1 / 1000000000)),
    (str "ps", .q (1 / 1000000000000)),
    (str "fs", .q (1 / 1000000000000000)),
    (str "as", .q (1 / 1000000000000000000)),
    (str "zs", .q (1 / 1000000000000000000000)),
    (str "ys", .q (1 / 1000000000000000000000000)),
    (str "stbl", .w (str "stable")),
    (str "p-unst", .w (str "unstable")),
    (str "n-unst", .w (str "unstable")),
    (str "?", .w (str "unknown")) ]

/-- `Nuclide._long_time_units`. -/
def longTimeUnits : List (Str × UnitVal) :=
  [ (str "Yy", .q 1000000000000000000000000),
    (str "Zy", .q 1000000000000000000000),
    (str "Ey", .q 1000000000000000000),
    (str "Py", .q 1000000000000000),
    (str "Ty", .q 1000000000000),
    (str "Gy", .q 1000000000),
    (str "My", .q 1000000),
    (str "ky", .q 1000),
    (str "y", .q 1) ]

/-- `Nuclide._element`: chemical symbols indexed by Z (index 0 is the
neutron). -/
def elementTable : List Str :=
  [ str "n",
    str "H", str "He", str "Li", str "Be", str "B",
    str "C", str "N", str "O", str "F", str "Ne",
    str "Na", str "Mg", str "Al", str "Si", str "P",
    str "S", str "Cl", str "Ar", str "K", str "Ca",
    str "Sc", str "Ti", str "V", str "Cr", str "Mn",
    str "Fe", str "Co", str "Ni", str "Cu", str "Zn",
    str "Ga", str "Ge", str "As", str "Se", str "Br",
    str "Kr", str "Rb", str "Sr", str "Y", str "Zr",
    str "Nb", str "Mo", str "Tc", str "Ru", str "Rh",
    str "Pd", str "Ag", str "Cd", str "In", str "Sn",
    str "Sb", str "Te", str "I", str "Xe", str "Cs",
    str "Ba", str "La", str "Ce", str "Pr", str "Nd",
    str "Pm", str "Sm", str "Eu", str "Gd", str "Tb",
    str "Dy", str "Ho", str "Er", str "Tm", str "Yb",
    str "Lu", str "Hf", str "Ta", str "W", str "Re",
    str "Os", str "Ir", str "Pt", str "Au", str "Hg",
    str "Tl", str "Pb", str "Bi", str "Po", str "At",
    str "Rn", str "Fr", str "Ra", str "Ac", str "Th",
    str "Pa", str "U", str "Np", str "Pu", str "Am",
    str "Cm", str "Bk", str "Cf", str "Es", str "Fm",
    str "Md", str "No", str "Lr", str "Rf", str "Db",
    str "Sg", str "Bh", str "Hs", str "Mt", str "Ds",
    str "Rg", str "Cn", str "Uut", str "Fl", str "Uup",
    str "Lv", str "Uus", str "Uuo", str "Uue", str "Ubn" ]

/-- Python sequence indexing `l[i]` (negative indices count from the end;
out of range raises `IndexError`). -/
def pyIndex {α : Type} (l : List α) (i : ℤ) : Except PyErr α :=
  let j : ℤ := if i < 0 then (l.length : ℤ) + i else i
  if 0 ≤ j then
    match l.get? j.toNat with
    | some a => .ok a
    | none => .error .indexError
  else
    .error .indexError

/-- The `element` property: `self._element[self.Z]`. -/
def elementOf (Z : ℤ) : Except PyErr Str := pyIndex elementTable Z

/-- `Nuclide.__str__`: `"{}{}".format(self.A, self.element)`. -/
def nuclideLabel (n : Nuclide) : Except PyErr Str := do
  let e ← elementOf n.Z
  return intToStr n.A ++ e

/-! ## The `Nuclide` setters and append operations -/

/-- The `Z.setter`: `Z = int(Z)` (a `ValueError` becomes a
`ParameterError`), then `Z ≥ 0` is required.  `A` is not re-examined. -/
def pySetZ (n : Nuclide) (v : PVal) : Except PyErr Nuclide :=
  match pyIntOf v with
  | .error _ => .error .paramError
  | .ok z =>
    if z < 0 then .error .paramError
    else .ok { n with Z := z }

/-- The `A.setter`: `A = int(A)`, then `A ≥ 1` is required unless the
current `Z` is `0` (dummy nuclide). -/
def pySetA (n : Nuclide) (v : PVal) : Except PyErr Nuclide :=
  match pyIntOf v with
  | .error _ => .error .paramError
  | .ok a =>
    if a < 1 ∧ n.Z ≠ 0 then .error .paramError
    else .ok { n with A := a }

/-- Required-key check of the `mass_defect.setter`. -/
def checkMassDefect (d : MassDefectDict) : Except PyErr MassDefect :=
  match d.value, d.uncertainity, d.extrapolated with
  | some v, some u, some e => .ok ⟨v, u, e⟩
  | _, _, _ => .error .paramError

/-- The `mass_defect.setter` (`None` gives the empty dictionary). -/
def pySetMassDefect (n : Nuclide) (d : Option MassDefectDict) :
    Except PyErr Nuclide :=
  match d with
  | none => .ok { n with mass_defect := none }
  | some d => do
    let md ← checkMassDefect d
    return { n with mass_defect := some md }

/-- Required-key check of the `half_life.setter`
(`value, unit, uncertainity, relation, extrapolated`). -/
def checkHalfLife (d : HalfLifeDict) : Except PyErr HalfLife :=
  match d.value, d.unit, d.uncertainity, d.relation, d.extrapolated with
  | some v, some un, some uc, some r, some e => .ok ⟨v, un, uc, r, e⟩
  | _, _, _, _, _ => .error .paramError

/-- The `half_life.setter`. -/
def pySetHalfLife (n : Nuclide) (d : Option HalfLifeDict) :
    Except PyErr Nuclide :=
  match d with
  | none => .ok { n with half_life := none }
  | some d => do
    let hl ← checkHalfLife d
    return { n with half_life := some hl }

/-- Required-key check of the `gs_spin.setter`. -/
def checkGsSpin (d : GsSpinDict) : Except PyErr GsSpin :=
  match d.value, d.extrapolated with
  | some v, some e => .ok ⟨v, e⟩
  | _, _ => .error .paramError

/-- The `gs_spin.setter`. -/
def pySetGsSpin (n : Nuclide) (d : Option GsSpinDict) :
    Except PyErr Nuclide :=
  match d with
  | none => .ok { n with gs_spin := none }
  | some d => do
    let gs ← checkGsSpin d
    return { n with gs_spin := some gs }

/-- Required-key check of `add_decay_mode`
(`mode, relation, value, uncertainity`). -/
def checkDecayMode (d : DecayModeDict) : Except PyErr DecayMode :=
  match d.mode, d.relation, d.value, d.uncertainity with
  | some m, some r, some v, some u => .ok ⟨m, r, v, u⟩
  | _, _, _, _ => .error .paramError

/-- `Nuclide.add_decay_mode`. -/
def addDecayMode (n : Nuclide) (d : DecayModeDict) : Except PyErr Nuclide := do
  let dm ← checkDecayMode d
  return { n with decay_modes := n.decay_modes ++ [dm] }

/-- The `decay_modes.setter`: reset, then `add_decay_mode` on each entry
(`None` gives the empty list). -/
def pySetDecayModes (n : Nuclide) (ds : Option (List DecayModeDict)) :
    Except PyErr Nuclide := do
  let n := { n with decay_modes := [] }
  match ds with
  | none => return n
  | some ds => ds.foldlM addDecayMode n

/-- `Nuclide.add_isomer`: checks the keys
`energy, uncertainity, extrapolated, half_life, decay_modes`, the keys of
the nested `half_life`, and the keys of every nested decay mode —
but never the `comment` key. -/
def addIsomer (n : Nuclide) (d : IsomerDict) : Except PyErr Nuclide :=
  match d.energy, d.uncertainity, d.extrapolated, d.half_life, d.decay_modes with
  | some en, some un, some ex, some hld, some dms => do
    let hl ← checkHalfLife hld
    let modes ← dms.mapM checkDecayMode
    return { n with isomers :=
      n.isomers ++ [⟨en, un, ex, hl, modes, d.comment⟩] }
  | _, _, _, _, _ => .error .paramError

/-- `Nuclide.add_isomer_decay_mode`.  When the required-key check fails,
the source raises `ParameterError(...format(isomer))` where `isomer` is
an unbound name, so Python actually raises `NameError`. -/
def addIsomerDecayMode (n : Nuclide) (isomer_index : ℤ) (d : DecayModeDict) :
    Except PyErr Nuclide :=
  match checkDecayMode d with
  | .error _ => .error .nameError
  | .ok dm =>
    let j : ℤ :=
      if isomer_index < 0 then (n.isomers.length : ℤ) + isomer_index
      else isomer_index
    if h : 0 ≤ j ∧ j.toNat < n.isomers.length then
      let iso := n.isomers.get ⟨j.toNat, h.2⟩
      .ok { n with isomers :=
        n.isomers.set j.toNat { iso with decay_modes := iso.decay_modes ++ [dm] } }
    else
      .error .indexError

/-- `Nuclide.__init__` with all optional sub-records, as the base-class
constructor runs it (each field goes through its setter). -/
def mkNuclide (Z A : PVal) (md : Option MassDefectDict)
    (hl : Option HalfLifeDict) (gs : Option GsSpinDict)
    (dms : Option (List DecayModeDict)) (comment : Option Str) :
    Except PyErr Nuclide := do
  let n0 : Nuclide := ⟨0, 0, none, none, none, [], [], []⟩
  let n1 ← pySetZ n0 Z
  let n2 ← pySetA n1 A
  let n3 ← pySetMassDefect n2 md
  let n4 ← pySetHalfLife n3 hl
  let n5 ← pySetGsSpin n4 gs
  let n6 ← pySetDecayModes n5 dms
  return { n6 with comment := comment.getD [] }

/-! ## `NuclideNb03` parsers (NuBase evaluator format) -/

/-- The `#`-handling and whitespace split shared by the NuBase value
parsers: strip, flag `extrapolated` when `#` occurs, replace `#` by a
space, split on whitespace. -/
def nbHalfLifeItems (half_life : Str) : List Str :=
  let hl0 := pyStrip half_life
  let extrapolated := 0 < hl0.count '#'
  let hl := if extrapolated then replaceChar '#' ' ' hl0 else hl0
  pySplitWs hl

/-- The `extrapolated` flag computed by `_parse_half_life`. -/
def nbHalfLifeExtrap (half_life : Str) : Bool :=
  decide (0 < (pyStrip half_life).count '#')

/-- The `if/elif` chain of `NuclideNb03._parse_half_life`, applied to the
token list.  Tokens of length 2 or 3 require `items[1]` to be a key of
one of the two unit dictionaries, otherwise `ParameterError` is raised. -/
def nbHalfLifeFromItems (items : List Str) (extrapolated : Bool) :
    Except PyErr HalfLife :=
  match items with
  | [] =>
    .ok ⟨.s (str "?"), .s (str "?"), .s (str "?"), .s (str "?"), .b extrapolated⟩
  | i0 :: rest =>
    if i0 = str "stbl" ∨ i0 = str "p-unst" ∨ i0 = str "n-unst" then
      -- `result['value'] = self._short_time_units[items[0]]`
      match dictGet shortTimeUnits i0 with
      | some (.w v) => .ok ⟨.s v, .s [], .s [], .s (str "="), .b extrapolated⟩
      | _ => .error .keyError
    else
      match rest with
      | [i1] =>
        if (dictGet shortTimeUnits i1).isNone ∧ (dictGet longTimeUnits i1).isNone
        then .error .paramError
        else .ok ⟨.s i0, .s i1, .s (str "?"), .s (str "="), .b extrapolated⟩
      | [i1, i2] =>
        if (dictGet shortTimeUnits i1).isNone ∧ (dictGet longTimeUnits i1).isNone
        then .error .paramError
        else .ok ⟨.s i0, .s i1, .s i2, .s (str "="), .b extrapolated⟩
      | _ => .error .paramError

/-- `NuclideNb03._parse_half_life`. -/
def nbParseHalfLife (half_life : Str) : Except PyErr HalfLife :=
  nbHalfLifeFromItems (nbHalfLifeItems half_life) (nbHalfLifeExtrap half_life)

/-- One item of the `;`-separated decay-mode string, after the `le`/`ge`
substitution: the `" ?"`-rewriting, the relation split, and the
value/uncertainty split of `NuclideNb03._parse_decay_modes`.  A failed
3-way unpacking of `re.split` raises `ValueError`; `value[0]` on an empty
token list raises `IndexError`. -/
def nbParseDecayItem (item0 : Str) : Except PyErr DecayMode :=
  let item :=
    if containsSub (str " ?") item0 ∧ item0.count '=' = 0 then
      replaceSub (str " ?") (str "=?") item0
    else item0
  match reSplitRel item with
  | [mode, relation, value0] =>
    match pySplitWs value0 with
    | [] => .error .indexError
    | v :: rest =>
      let error := match rest with | [] => str "0" | e :: _ => e
      .ok ⟨.s mode, .s relation, .s v, .s error⟩
  | _ => .error .valueError

/-- `NuclideNb03._parse_decay_modes`: substitute the Fortran `le`/`ge`
leftovers by `≤`/`≥`, return the sentinel entry on an all-whitespace
string, otherwise parse each `;`-separated item (a `ValueError` is caught
and re-raised as `ParameterError`; any other exception propagates). -/
def nbParseDecayModes (decay_modes : Str) : Except PyErr (List DecayMode) :=
  let dm := replaceSub (str "le") (str "≤") decay_modes
  let dm := replaceSub (str "ge") (str "≥") dm
  if (pyStrip dm).length = 0 then
    .ok [⟨.s (str "?"), .s [], .s [], .s []⟩]
  else
    match (pySplitOn ';' dm).mapM nbParseDecayItem with
    | .ok l => .ok l
    | .error .valueError => .error .paramError
    | .error e => .error e

/-- The decay-modes field preprocessing done by `Nubase12_2xml.py`
(line 103): the raw column slice is stripped and lower-cased before it
reaches `_parse_decay_modes`. -/
def nb12DecayModesPre (field : Str) : Str := pyLower (pyStrip field)

/-- Decay-mode parsing as run by the `Nubase12_2xml.py` pipeline. -/
def nb12ParseDecayModes (field : Str) : Except PyErr (List DecayMode) :=
  nbParseDecayModes (nb12DecayModesPre field)

/-! ## `NuclideNwc11` parser (Nuclear Wallet Cards format) -/

/-- The attempted eV→time conversion in `nwc_parse_half_life`:
`items[i] = '{0:.5f}'.format(items[i] * 0.04562)` where `items[i]` is a
string produced by `split()`.  In Python, multiplying a `str` by a
`float` raises `TypeError` unconditionally, and the surrounding
`except TypeError: pass` swallows it, so the token is left unchanged. -/
def nwcEnergyConvert (tok : Str) : Str := tok

/-- `NuclideNwc11.nwc_parse_half_life`: lower-case, strip, split on
whitespace, pad a 2-token list with `"?"`; keywords `stable`/`unbound`;
otherwise exactly 3 tokens with `eV/keV/MeV` mapped to `as/zs/ys`, a unit
test against both unit dictionaries, and a relation-code table on the
third token. -/
def nwcParseHalfLife (half_life : Str) : Except PyErr HalfLife :=
  let hl := pyStrip (pyLower half_life)
  let items0 := pySplitWs hl
  let items := if items0.length = 2 then items0 ++ [str "?"] else items0
  match items with
  | [] => .ok ⟨.s (str "?"), .s (str "?"), .s (str "?"), .s (str "?"), .b false⟩
  | i0 :: rest =>
    if i0 = str "stable" ∨ i0 = str "unbound" then
      let value := if i0 = str "stable" then i0 else str "unstable"
      let uncert : Str := match rest with | [] => [] | u :: _ => u
      .ok ⟨.s value, .s [], .s uncert, .s (str "="), .b false⟩
    else
      match rest with
      | [j1, j2] =>
        let conv := j1 = str "ev" ∨ j1 = str "kev" ∨ j1 = str "mev"
        let i1 :=
          if j1 = str "ev" then str "as"
          else if j1 = str "kev" then str "zs"
          else if j1 = str "mev" then str "ys"
          else j1
        let i0 := if conv then nwcEnergyConvert i0 else i0
        let i2 := if conv then nwcEnergyConvert j2 else j2
        if (dictGet shortTimeUnits i1).isNone ∧ (dictGet longTimeUnits i1).isNone
        then .error .paramError
        else if i2 = str "ap" then
          .ok ⟨.s i0, .s i1, .s (str "?"), .s (str "~"), .b false⟩
        else if i2 = str "lt" then
          .ok ⟨.s i0, .s i1, .s (str "?"), .s (str "<"), .b false⟩
        else if i2 = str "le" then
          .ok ⟨.s i0, .s i1, .s (str "?"), .s (str "≤"), .b false⟩
        else if i2 = str "gt" then
          .ok ⟨.s i0, .s i1, .s (str "?"), .s (str ">"), .b false⟩
        else if i2 = str "ge" then
          .ok ⟨.s i0, .s i1, .s (str "?"), .s (str "≥"), .b false⟩
        else
          .ok ⟨.s i0, .s i1, .s i2, .s (str "="), .b false⟩
      | _ => .error .paramError

/-- `NuclideNwc11.__init__`: the base-class constructor with
`half_life=None`, then `self.half_life = self.nwc_parse_half_life(...)`. -/
def mkNuclideNwc11 (Z A : ℤ) (md : MassDefectDict) (half_life : Str)
    (gs : GsSpinDict) (dms : List DecayModeDict) (comment : Str) :
    Except PyErr Nuclide := do
  let n ← mkNuclide (.i Z) (.i A) (some md) none (some gs) (some dms)
            (some comment)
  let hl ← nwcParseHalfLife half_life
  return { n with half_life := some hl }

/-! ## The xml document model (`xml.dom.minidom` as used here)

Element and text nodes; `getElementsByTagName` returns the descendant
elements with the given tag in document order (the element itself is not
included), and `getAttribute` returns the empty string for a missing
attribute. -/

mutual
/-- A dom node: an element (tag, attributes, children) or a text node. -/
inductive XNode where
  | elem (tag : Str) (attrs : List (Str × Str)) (children : XNodes) : XNode
  | text (data : Str) : XNode

/-- A list of dom nodes (spelled out so that all recursion below is
structural). -/
inductive XNodes where
  | nil : XNodes
  | cons (hd : XNode) (tl : XNodes) : XNodes
end

/-- Builds an `XNodes` children list. -/
def xnodes : List XNode → XNodes
  | [] => .nil
  | n :: ns => .cons n (xnodes ns)

mutual
/-- The matching descendants-or-self of one node, in document order. -/
def xDescSelf (name : Str) : XNode → List XNode
  | .text _ => []
  | .elem t a cs =>
    (if t = name then [XNode.elem t a cs] else []) ++ xDescList name cs

/-- The matching descendants of a children list, in document order. -/
def xDescList (name : Str) : XNodes → List XNode
  | .nil => []
  | .cons n tl => xDescSelf name n ++ xDescList name tl
end

/-- `node.getElementsByTagName(name)`. -/
def getElementsByTagName (n : XNode) (name : Str) : List XNode :=
  match n with
  | .text _ => []
  | .elem _ _ cs => xDescList name cs

/-- `node.getAttribute(name)`: the empty string when absent. -/
def getAttribute (n : XNode) (name : Str) : Str :=
  match n with
  | .text _ => []
  | .elem _ attrs _ => (dictGet attrs name).getD []

/-- `l[0]` on a node list (`IndexError` when empty). -/
def firstNode (l : List XNode) : Except PyErr XNode :=
  match l with
  | [] => .error .indexError
  | n :: _ => .ok n

/-! ## `Nuclide.add_to_xml_table` (serialization)

Attribute insertion order follows the record-field order; `minidom`
attribute access is by name, so the order is not observable through
`getAttribute`. -/

/-- The attribute list written for a sub-record dictionary
(`for key, value in d.items(): elem.setAttribute(key, str(value))`);
an empty dictionary writes no attributes. -/
def mdAttrs (md : Option MassDefect) : List (Str × Str) :=
  match md with
  | none => []
  | some m => [(str "value", pyStrOf m.value),
               (str "uncertainity", pyStrOf m.uncertainity),
               (str "extrapolated", pyStrOf m.extrapolated)]

/-- Attributes of a `half_life` element. -/
def hlAttrs (hl : Option HalfLife) : List (Str × Str) :=
  match hl with
  | none => []
  | some h => [(str "value", pyStrOf h.value),
               (str "unit", pyStrOf h.unit),
               (str "uncertainity", pyStrOf h.uncertainity),
               (str "relation", pyStrOf h.relation),
               (str "extrapolated", pyStrOf h.extrapolated)]

/-- Attributes of a `spin` element. -/
def spinAttrs (gs : Option GsSpin) : List (Str × Str) :=
  match gs with
  | none => []
  | some g => [(str "value", pyStrOf g.value),
               (str "extrapolated", pyStrOf g.extrapolated)]

/-- One `decay` element. -/
def decayElem (d : DecayMode) : XNode :=
  .elem (str "decay")
    [(str "mode", pyStrOf d.mode),
     (str "relation", pyStrOf d.relation),
     (str "value", pyStrOf d.value),
     (str "uncertainity", pyStrOf d.uncertainity)] .nil

/-- A `decay_modes` element with its `decay` children. -/
def decayModesElem (ds : List DecayMode) : XNode :=
  .elem (str "decay_modes") [] (xnodes (ds.map decayElem))

/-- One `isomer` element.  `state['comment']` is a direct dictionary
lookup: a missing `comment` key raises `KeyError`. -/
def isomerElem (iso : Isomer) : Except PyErr XNode :=
  match iso.comment with
  | none => .error .keyError
  | some c =>
    .ok (.elem (str "isomer")
      [(str "energy", pyStrOf iso.energy),
       (str "uncertainity", pyStrOf iso.uncertainity),
       (str "extrapolated", pyStrOf iso.extrapolated)]
      (xnodes
        [.elem (str "half_life") (hlAttrs (some iso.half_life)) .nil,
         decayModesElem iso.decay_modes,
         .elem (str "comment") [] (xnodes [.text (pyStrOf c)])]))

/-- `Nuclide.add_to_xml_table`, as the `nuclide` element it appends to
the document root: attributes `Z, A, id, element`, children
`mass_defect`, `half_life`, `spin`, `decay_modes`, the `isomers` element
when there is at least one isomer, and `comment`. -/
def buildNuclideXml (n : Nuclide) : Except PyErr XNode := do
  let el ← elementOf n.Z
  let label ← nuclideLabel n
  let isomerNodes ← n.isomers.mapM isomerElem
  let children :=
    [XNode.elem (str "mass_defect") (mdAttrs n.mass_defect) .nil,
     XNode.elem (str "half_life") (hlAttrs n.half_life) .nil,
     XNode.elem (str "spin") (spinAttrs n.gs_spin) .nil,
     decayModesElem n.decay_modes]
    ++ (if 0 < n.isomers.length then
          [XNode.elem (str "isomers") [] (xnodes isomerNodes)]
        else [])
    ++ [XNode.elem (str "comment") [] (xnodes [.text n.comment])]
  return .elem (str "nuclide")
    [(str "Z", intToStr n.Z), (str "A", intToStr n.A),
     (str "id", label), (str "element", el)]
    (xnodes children)

/-! ## `NuclideXml.parse_xml_entry` (deserialization) -/

/-- The decay-mode dictionary read from one `decay` element
(`decay_attr = ["mode", "value", "relation", "uncertainity"]`;
`getAttribute` never yields `None`, so every key is present). -/
def decayDictOfElem (decay : XNode) : DecayModeDict :=
  ⟨some (.s (getAttribute decay (str "mode"))),
   some (.s (getAttribute decay (str "relation"))),
   some (.s (getAttribute decay (str "value"))),
   some (.s (getAttribute decay (str "uncertainity")))⟩

/-- The half-life dictionary read from a `half_life` element
(`hl_attr = ['value', 'unit', 'uncertainity', 'relation',
'extrapolated']`). -/
def hlDictOfElem (half_life : XNode) : HalfLifeDict :=
  ⟨some (.s (getAttribute half_life (str "value"))),
   some (.s (getAttribute half_life (str "unit"))),
   some (.s (getAttribute half_life (str "uncertainity"))),
   some (.s (getAttribute half_life (str "relation"))),
   some (.s (getAttribute half_life (str "extrapolated")))⟩

/-- The isomer loop body of `parse_xml_entry`.  Two quirks of the source
are kept: the isomer's decay modes are read from
`nuclide.getElementsByTagName("decay_modes")[0]` — the first
`decay_modes` element under the whole *nuclide* entry, not under the
isomer — and no `comment` entry is ever put into `i_data`. -/
def parseXmlIsomer (nuclide : XNode) (self : Nuclide) (isomer : XNode) :
    Except PyErr Nuclide := do
  let half_life ← firstNode (getElementsByTagName isomer (str "half_life"))
  let decay_modes ← firstNode (getElementsByTagName nuclide (str "decay_modes"))
  let dm_data := (getElementsByTagName decay_modes (str "decay")).map decayDictOfElem
  let i_data : IsomerDict :=
    ⟨some (.s (getAttribute isomer (str "energy"))),
     some (.s (getAttribute isomer (str "uncertainity"))),
     some (.s (getAttribute isomer (str "extrapolated"))),
     some (hlDictOfElem half_life),
     some dm_data,
     none⟩
  addIsomer self i_data

/-- `NuclideXml.parse_xml_entry`: reads `A`, `Z`, the sub-record
elements and the decay modes, then every isomer.  The nuclide-level
`comment` element is never read back. -/
def parseXmlEntry (self : Nuclide) (nuclide : XNode) : Except PyErr Nuclide := do
  let self ← pySetA self (.s (getAttribute nuclide (str "A")))
  let self ← pySetZ self (.s (getAttribute nuclide (str "Z")))
  let mass_defect ← firstNode (getElementsByTagName nuclide (str "mass_defect"))
  let md_data : MassDefectDict :=
    ⟨some (.s (getAttribute mass_defect (str "value"))),
     some (.s (getAttribute mass_defect (str "uncertainity"))),
     some (.s (getAttribute mass_defect (str "extrapolated")))⟩
  let self ← pySetMassDefect self (some md_data)
  let half_life ← firstNode (getElementsByTagName nuclide (str "half_life"))
  let self ← pySetHalfLife self (some (hlDictOfElem half_life))
  let spin ← firstNode (getElementsByTagName nuclide (str "spin"))
  let s_data : GsSpinDict :=
    ⟨some (.s (getAttribute spin (str "value"))),
     some (.s (getAttribute spin (str "extrapolated")))⟩
  let self ← pySetGsSpin self (some s_data)
  let decay_modes ← firstNode (getElementsByTagName nuclide (str "decay_modes"))
  let dm_data := (getElementsByTagName decay_modes (str "decay")).map decayDictOfElem
  let self ← pySetDecayModes self (some dm_data)
  match getElementsByTagName nuclide (str "isomers") with
  | [] => return self
  | isomers :: _ =>
    (getElementsByTagName isomers (str "isomer")).foldlM
      (parseXmlIsomer nuclide) self

/-- The dummy start object of `NuclideXml(0, 0)`, before
`parse_xml_entry` overwrites it. -/
def emptyNuclide : Nuclide := ⟨0, 0, none, none, none, [], [], []⟩

/-- Encode then decode one nuclide (the round trip of the document
codec). -/
def xmlRoundTrip (n : Nuclide) : Except PyErr Nuclide := do
  let x ← buildNuclideXml n
  parseXmlEntry emptyNuclide x

/-! ## The `Nwc2xml.py` main loop (wallet-card isomer state merger)

One record holds the stripped column slices of one line (lines 57–71 of
`Nwc2xml.py`); `A` and `Z` are the already-converted integers. -/

/-- The local variables extracted from one wallet-card line. -/
structure NwcRecord where
  A : ℤ
  Z : ℤ
  isomer : Bool
  spin : Str
  d_mode : Str
  d_relation : Str
  d_branch : Str
  isomer_excitation : Str
  half_life : Str
  abundance : Str
  mass : Str
  mass_error : Str
  extrapolated : Bool
  comment : Str
  deriving DecidableEq, Repr

/-- The `previous` dictionary
`{'A': , 'Z': , 'mass_defect': , 'half_life': , 'isomer': }`; the three
non-integer entries start out as `None`. -/
structure NwcPrev where
  A : ℤ
  Z : ℤ
  mass_defect : Option MassDefectDict
  half_life : Option Str
  isomer : Option Bool
  deriving DecidableEq, Repr

/-- The mutable state of the main loop.  `isotope` and `decay_mode` are
`None` while the corresponding Python local variable is still unbound
(touching it then raises `NameError`). -/
structure NwcState where
  first : Bool
  data : List Nuclide
  previous : NwcPrev
  isotope : Option Nuclide
  decay_mode : Option DecayModeDict
  deriving DecidableEq, Repr

/-- The initial state of the loop. -/
def nwcInit : NwcState :=
  ⟨true, [], ⟨0, 0, none, none, none⟩, none, none⟩

/-- The `mass_defect` dictionary built from one record. -/
def nwcMassDefect (r : NwcRecord) : MassDefectDict :=
  ⟨some (.s r.mass), some (.s r.mass_error), some (.b r.extrapolated)⟩

/-- The `gs_spin` dictionary built from one record. -/
def nwcGsSpin (r : NwcRecord) : GsSpinDict :=
  ⟨some (.s r.spin), some (.b false)⟩

/-- The `current` identity dictionary of one record. -/
def nwcSnapshot (r : NwcRecord) : NwcPrev :=
  ⟨r.A, r.Z, some (nwcMassDefect r), some r.half_life, some r.isomer⟩

/-- The abundance entry (`stable_data`): mode `is`, value
`abundance[0].strip('%.')`, relation `=`; `abundance[0]` on the empty
token list raises `IndexError` (this sits before the `try` block, so it
would not be caught). -/
def nwcStableData (abundance : Str) : Except PyErr DecayModeDict :=
  match pySplitWs abundance with
  | [] => .error .indexError
  | a0 :: rest =>
    .ok ⟨some (.s (str "is")),
         some (.s (str "=")),
         some (.s (pyStripChars ['%', '.'] a0)),
         some (.s (match rest with | [] => [] | a1 :: _ => a1))⟩

/-- The decay-mode dictionary built from a record with a non-empty
`d_mode` column: electron-capture modes `ep, e2p, e3p, ea, e2a` are
rewritten to `b+…`, and the relation codes `@`/`&` map to `~`. -/
def nwcDecayDict (r : NwcRecord) : DecayModeDict :=
  let dl := pyLower r.d_mode
  let mode :=
    if dl = str "ep" ∨ dl = str "e2p" ∨ dl = str "e3p" ∨ dl = str "ea" ∨
       dl = str "e2a" then
      str "b+" ++ dl.drop 1
    else dl
  let relation :=
    if r.d_relation = [] then str "="
    else if r.d_relation = str "@" ∨ r.d_relation = str "&" then str "~"
    else r.d_relation
  ⟨some (.s mode), some (.s relation), some (.s r.d_branch), some (.s (str "?"))⟩

/-- The sentinel entry used when a record has neither abundance nor
decay-mode columns. -/
def nwcEmptyMode : DecayModeDict :=
  ⟨some (.s (str "?")), some (.s []), some (.s []), some (.s [])⟩

/-- The `decay_modes` list of one record (lines 78–117), together with
the new value of the loop-carried `decay_mode` variable (assigned only
when `d_mode` is non-empty). -/
def nwcBuildModes (r : NwcRecord) (dmVar : Option DecayModeDict) :
    Except PyErr (List DecayModeDict × Option DecayModeDict) :=
  match (if 0 < r.abundance.length then
           (nwcStableData r.abundance).map (fun sd => [sd])
         else .ok []) with
  | .error e => .error e
  | .ok base =>
    let p :=
      if 0 < r.d_mode.length then
        (base ++ [nwcDecayDict r], some (nwcDecayDict r))
      else (base, dmVar)
    .ok (if p.1 = [] then [nwcEmptyMode] else p.1, p.2)

/-- How one record leaves the `try` block: either every statement ran, or
an exception interrupted it after some state mutations already took
effect. -/
inductive NwcTryOut where
  /-- All statements ran; the new `first`/`data`/`isotope`. -/
  | done (first : Bool) (data : List Nuclide) (isotope : Option Nuclide)
  /-- An exception was raised after the recorded partial mutations. -/
  | raised (first : Bool) (data : List Nuclide) (isotope : Option Nuclide)
      (e : PyErr)

/-- The `try` block of the loop body (lines 127–173), for a record whose
`decay_modes`/`current`/`same` values are already computed. -/
def nwcTryBody (st : NwcState) (r : NwcRecord) (modes : List DecayModeDict)
    (dmVar : Option DecayModeDict) (same : Bool) : NwcTryOut :=
  if same ∧ ¬r.isomer then
    -- additional decay mode of the isotope
    match st.isotope, dmVar with
    | none, _ => .raised st.first st.data st.isotope .nameError
    | some _, none => .raised st.first st.data st.isotope .nameError
    | some iso, some dm =>
      match addDecayMode iso dm with
      | .ok iso2 => .done st.first st.data (some iso2)
      | .error e => .raised st.first st.data st.isotope e
  else if same ∧ r.isomer then
    -- additional decay mode of the last isomer
    match st.isotope, dmVar with
    | none, _ => .raised st.first st.data st.isotope .nameError
    | some _, none => .raised st.first st.data st.isotope .nameError
    | some iso, some dm =>
      match addIsomerDecayMode iso ((iso.isomers.length : ℤ) - 1) dm with
      | .ok iso2 => .done st.first st.data (some iso2)
      | .error e => .raised st.first st.data st.isotope e
  else if r.isomer ∧ (r.A ≠ st.previous.A ∨ r.Z ≠ st.previous.Z) then
    -- new identity flagged isomer: new isotope plus a copy as its isomer
    let fin : Except PyErr (Bool × List Nuclide) :=
      if ¬st.first then
        match st.isotope with
        | none => .error .nameError
        | some iso => .ok (st.first, st.data ++ [iso])
      else .ok (false, st.data)
    match fin with
    | .error e => .raised st.first st.data st.isotope e
    | .ok (first2, data2) =>
      match mkNuclideNwc11 r.Z r.A (nwcMassDefect r) r.half_life (nwcGsSpin r)
              modes r.comment with
      | .error e => .raised first2 data2 st.isotope e
      | .ok iso1 =>
        match nwcParseHalfLife r.half_life with
        | .error e => .raised first2 data2 (some iso1) e
        | .ok isomer_hl =>
          let isomer_data : IsomerDict :=
            ⟨some (.s r.isomer_excitation), some (.s (str "?")),
             some (.b r.extrapolated),
             some ⟨some isomer_hl.value, some isomer_hl.unit,
                   some isomer_hl.uncertainity, some isomer_hl.relation,
                   some isomer_hl.extrapolated⟩,
             some modes, some (.s r.comment)⟩
          match addIsomer iso1 isomer_data with
          | .ok iso2 => .done first2 data2 (some iso2)
          | .error e => .raised first2 data2 (some iso1) e
  else if r.isomer then
    -- same A and Z: append a new isomer state to the current isotope
    match st.isotope with
    | none => .raised st.first st.data st.isotope .nameError
    | some iso =>
      match nwcParseHalfLife r.half_life with
      | .error e => .raised st.first st.data st.isotope e
      | .ok isomer_hl =>
        let isomer_data : IsomerDict :=
          ⟨some (.s r.isomer_excitation), some (.s (str "?")),
           some (.b r.extrapolated),
           some ⟨some isomer_hl.value, some isomer_hl.unit,
                 some isomer_hl.uncertainity, some isomer_hl.relation,
                 some isomer_hl.extrapolated⟩,
           some modes, some (.s r.comment)⟩
        match addIsomer iso isomer_data with
        | .ok iso2 => .done st.first st.data (some iso2)
        | .error e => .raised st.first st.data st.isotope e
  else
    -- create a new isotope
    let fin : Except PyErr (Bool × List Nuclide) :=
      if ¬st.first then
        match st.isotope with
        | none => .error .nameError
        | some iso => .ok (st.first, st.data ++ [iso])
      else .ok (false, st.data)
    match fin with
    | .error e => .raised st.first st.data st.isotope e
    | .ok (first2, data2) =>
      match mkNuclideNwc11 r.Z r.A (nwcMassDefect r) r.half_life (nwcGsSpin r)
              modes r.comment with
      | .error e => .raised first2 data2 st.isotope e
      | .ok iso1 => .done first2 data2 (some iso1)

/-- How processing one record ends: the loop continues with a new state
(`continued`, with the flag recording whether the record was processed
without an exception), or the program dies (uncaught exception, or the
`exit()` in the `IndexError` handler). -/
inductive NwcStepOut where
  | continued (st : NwcState) (clean : Bool)
  | exited
  | crashed (e : PyErr)
  deriving DecidableEq, Repr

/-- One iteration of the `Nwc2xml.py` main loop.  A `ParameterError` is
reported and the record skipped — but the report itself reads `isotope`,
which raises `NameError` when no isotope was ever created.  An
`IndexError` leads to `exit()`.  Anything else (in particular
`NameError`) is an uncaught exception.  The `else` clause updates
`previous` only when no exception occurred. -/
def nwcStep (st : NwcState) (r : NwcRecord) : NwcStepOut :=
  match nwcBuildModes r st.decay_mode with
  | .error e => .crashed e
  | .ok (modes, dmVar) =>
    let current := nwcSnapshot r
    let same := decide (current = st.previous)
    match nwcTryBody { st with decay_mode := dmVar } r modes dmVar same with
    | .done first2 data2 isotope2 =>
      .continued ⟨first2, data2, current, isotope2, dmVar⟩ true
    | .raised first2 data2 isotope2 e =>
      match e with
      | .paramError =>
        match isotope2 with
        | none => .crashed .nameError
        | some _ =>
          .continued ⟨first2, data2, st.previous, isotope2, dmVar⟩ false
      | .indexError => .exited
      | e => .crashed e

/-- Runs the loop over a list of records. -/
def nwcProcess (st : NwcState) : List NwcRecord → NwcStepOut
  | [] => .continued st true
  | r :: rs =>
    match nwcStep st r with
    | .continued st2 _ => nwcProcess st2 rs
    | out => out

/-- The whole program: after the loop, only the entities in `data` are
written to the xml document — there is no final append of the still-open
`isotope`. -/
def nwcRun (records : List NwcRecord) : Option (List Nuclide) :=
  match nwcProcess nwcInit records with
  | .continued st _ => some st.data
  | _ => none

/-! ## The public mutation interface of `Nuclide` -/

/-- One mutation of a `Nuclide` object through its public interface: the
property setters and the append methods. -/
inductive Mutation where
  | setZ (v : PVal)
  | setA (v : PVal)
  | setMassDefect (d : Option MassDefectDict)
  | setHalfLife (d : Option HalfLifeDict)
  | setGsSpin (d : Option GsSpinDict)
  | setDecayModes (ds : Option (List DecayModeDict))
  | addMode (d : DecayModeDict)
  | addIso (d : IsomerDict)
  | addIsoMode (isomer_index : ℤ) (d : DecayModeDict)
  | setComment (s : Str)
  deriving DecidableEq

/-- Applies one public mutation to a nuclide. -/
def applyMutation (n : Nuclide) : Mutation → Except PyErr Nuclide
  | .setZ v => pySetZ n v
  | .setA v => pySetA n v
  | .setMassDefect d => pySetMassDefect n d
  | .setHalfLife d => pySetHalfLife n d
  | .setGsSpin d => pySetGsSpin n d
  | .setDecayModes ds => pySetDecayModes n ds
  | .addMode d => addDecayMode n d
  | .addIso d => addIsomer n d
  | .addIsoMode i d => addIsomerDecayMode n i d
  | .setComment s => .ok { n with comment := s }

/-- The Z/A domain invariant the specification states: `Z ≥ 0`, and
`A ≥ 1` unless `Z = 0` (the dummy/neutron placeholder). -/
def ZAInvariant (n : Nuclide) : Prop := 0 ≤ n.Z ∧ (1 ≤ n.A ∨ n.Z = 0)

instance (n : Nuclide) : Decidable (ZAInvariant n) := by
  unfold ZAInvariant; infer_instance

/-! ## Auxiliary predicates and concrete inputs used by the theorems -/

/-- The validated record that `add_decay_mode` stores for the dictionary
`nwcDecayDict r` (all four keys are present, so validation succeeds). -/
def nwcDecayRec (r : NwcRecord) : DecayMode :=
  let dl := pyLower r.d_mode
  let mode :=
    if dl = str "ep" ∨ dl = str "e2p" ∨ dl = str "e3p" ∨ dl = str "ea" ∨
       dl = str "e2a" then
      str "b+" ++ dl.drop 1
    else dl
  let relation :=
    if r.d_relation = [] then str "="
    else if r.d_relation = str "@" ∨ r.d_relation = str "&" then str "~"
    else r.d_relation
  ⟨.s mode, .s relation, .s r.d_branch, .s (str "?")⟩

/-- The half-life unit set exactly as the specification's claim states
it: the short-time units `{d,h,m,s,ms,us,ns,ps,fs,as,zs,ys}` together
with the long-time units `{Yy,Zy,Ey,Py,Ty,Gy,My,ky,y}` — and nothing
else.  (Stated from the spec, for comparison with the dictionaries the
code actually consults.) -/
def specUnitSet : List Str :=
  [str "d", str "h", str "m", str "s", str "ms", str "us", str "ns",
   str "ps", str "fs", str "as", str "zs", str "ys",
   str "Yy", str "Zy", str "Ey", str "Py", str "Ty", str "Gy", str "My",
   str "ky", str "y"]

/-- All five keys of a half-life dictionary are present. -/
def halfLifeDictFull (h : HalfLifeDict) : Bool :=
  h.value.isSome && h.unit.isSome && h.uncertainity.isSome &&
  h.relation.isSome && h.extrapolated.isSome

/-- All four keys of a decay-mode dictionary are present. -/
def decayDictFull (d : DecayModeDict) : Bool :=
  d.mode.isSome && d.relation.isSome && d.value.isSome &&
  d.uncertainity.isSome

/-- The isomer dictionary carries every key that `add_isomer` checks
(`energy, uncertainity, extrapolated, half_life, decay_modes` with their
nested required keys) — the `comment` key is deliberately not part of
this list, mirroring the validator. -/
def isomerDictRequiredKeys (d : IsomerDict) : Bool :=
  d.energy.isSome && d.uncertainity.isSome && d.extrapolated.isSome &&
  (match d.half_life with
   | some h => halfLifeDictFull h
   | none => false) &&
  (match d.decay_modes with
   | some ds => ds.all decayDictFull
   | none => false)

/-- A well-formed canonical entity: ²H with one decay mode and one
isomer whose decay modes and comment differ from the ground state's. -/
def rtEntity : Nuclide :=
  ⟨1, 2,
   some ⟨.s (str "13136"), .s (str "3"), .s (str "False")⟩,
   some ⟨.s (str "12.32"), .s (str "y"), .s (str "0.02"), .s (str "="),
         .s (str "False")⟩,
   some ⟨.s (str "1+"), .s (str "False")⟩,
   [⟨.s (str "b-"), .s (str "="), .s (str "100"), .s (str "0")⟩],
   [⟨.s (str "3"), .s (str "1"), .s (str "False"),
     ⟨.s (str "1"), .s (str "s"), .s (str "?"), .s (str "="), .s (str "False")⟩,
     [⟨.s (str "it"), .s (str "="), .s (str "100"), .s (str "0")⟩],
     some (.s (str "ic"))⟩],
   str "c"⟩

/-- What decoding the encoded `rtEntity` actually produces: the isomer
carries the ground state's decay modes instead of its own, its comment
key is gone, and the nuclide comment is not read back. -/
def rtDecoded : Nuclide :=
  ⟨1, 2,
   some ⟨.s (str "13136"), .s (str "3"), .s (str "False")⟩,
   some ⟨.s (str "12.32"), .s (str "y"), .s (str "0.02"), .s (str "="),
         .s (str "False")⟩,
   some ⟨.s (str "1+"), .s (str "False")⟩,
   [⟨.s (str "b-"), .s (str "="), .s (str "100"), .s (str "0")⟩],
   [⟨.s (str "3"), .s (str "1"), .s (str "False"),
     ⟨.s (str "1"), .s (str "s"), .s (str "?"), .s (str "="), .s (str "False")⟩,
     [⟨.s (str "b-"), .s (str "="), .s (str "100"), .s (str "0")⟩],
     none⟩],
   []⟩

/-- A valid ground-state wallet-card record (²H, β⁻, half-life
`12.3 S`). -/
def nwcSampleRecord : NwcRecord :=
  ⟨2, 1, false, str "1+", str "B-", [], str "100", [], str "12.3 S", [],
   str "13136", str "3", false, str "c"⟩

/-- The entity `NuclideNwc11` builds from `nwcSampleRecord`. -/
def nwcSampleEntity : Nuclide :=
  ⟨1, 2, some ⟨.s (str "13136"), .s (str "3"), .b false⟩,
   some ⟨.s (str "12.3"), .s (str "s"), .s (str "?"), .s (str "="), .b false⟩,
   some ⟨.s (str "1+"), .b false⟩,
   [⟨.s (str "b-"), .s (str "="), .s (str "100"), .s (str "?")⟩],
   [], str "c"⟩

/-- The loop state after processing `nwcSampleRecord` from the initial
state. -/
def nwcSampleState : NwcState :=
  ⟨false, [], nwcSnapshot nwcSampleRecord, some nwcSampleEntity,
   some ⟨some (.s (str "b-")), some (.s (str "=")), some (.s (str "100")),
         some (.s (str "?"))⟩⟩

/-- A second record with the same identity snapshot as
`nwcSampleRecord` but a different decay mode column. -/
def nwcSampleRecord2 : NwcRecord :=
  { nwcSampleRecord with d_mode := str "A", d_branch := str "5" }

/-- A first record whose half-life column has an unknown unit, so that
`NuclideNwc11`'s constructor raises `ParameterError`. -/
def nwcBadRecord : NwcRecord :=
  ⟨2, 1, false, str "1+", str "B-", [], str "100", [], str "5 xx 3", [],
   str "13136", str "3", false, str "c"⟩

/-- An isomer dictionary that carries every required key but no
`comment`. -/
def noCommentIsomerDict : IsomerDict :=
  ⟨some (.s (str "3")), some (.s (str "1")), some (.b false),
   some ⟨some (.s (str "1")), some (.s (str "s")), some (.s (str "?")),
         some (.s (str "=")), some (.b false)⟩,
   some [⟨some (.s (str "it")), some (.s (str "=")), some (.s (str "100")),
          some (.s (str "0"))⟩],
   none⟩

/-- The entity obtained by `add_isomer`-ing `noCommentIsomerDict` onto
the ²H sample entity: validated, but with a comment-less isomer. -/
def noCommentResult : Nuclide :=
  { nwcSampleEntity with isomers :=
    [⟨.s (str "3"), .s (str "1"), .b false,
      ⟨.s (str "1"), .s (str "s"), .s (str "?"), .s (str "="), .b false⟩,
      [⟨.s (str "it"), .s (str "="), .s (str "100"), .s (str "0")⟩],
      none⟩] }

/-! ## Theorems -/

set_option maxRecDepth 40000 in
/-- C1: the round-trip contract fails on the code.  For the well-formed
entity `rtEntity` (every sub-record complete, the isomer carrying its
own decay modes and comment), decoding the encoded document yields
`rtDecoded`, which is not equal to `rtEntity`: the decoded isomer's
decay-mode list is the ground state's list (`parse_xml_entry` reads
`nuclide.getElementsByTagName("decay_modes")[0]`), the isomer's comment
key is absent, and the nuclide comment is not restored. -/
theorem c1_xml_roundtrip_discrepancy :
    xmlRoundTrip rtEntity = .ok rtDecoded ∧
    rtDecoded ≠ rtEntity ∧
    rtDecoded.isomers.map Isomer.decay_modes = [rtEntity.decay_modes] ∧
    rtEntity.isomers.map Isomer.decay_modes ≠ [rtEntity.decay_modes] ∧
    rtDecoded.isomers.map Isomer.comment = [none] ∧
    rtEntity.isomers.map Isomer.comment = [some (.s (str "ic"))] ∧
    rtDecoded.comment ≠ rtEntity.comment := by
  decide

set_option maxRecDepth 40000 in
/-- C2: the entity still current at end of stream is *not* appended to
the output sequence.  Processing the single valid ground-state record
`nwcSampleRecord` ends with the parsed entity still held in `isotope`,
`data` empty, and the serialized output of the whole run therefore
containing no entity at all. -/
theorem c2_last_entity_dropped :
    nwcProcess nwcInit [nwcSampleRecord] = .continued nwcSampleState true ∧
    nwcSampleState.isotope = some nwcSampleEntity ∧
    nwcSampleState.data = [] ∧
    nwcRun [nwcSampleRecord] = some [] := by
  decide

set_option maxRecDepth 40000 in
/-- C4: a `ParameterError` on the very first record of a run is not
survivable.  The `except ParameterError` handler formats `isotope`,
which is still unbound, so the program dies with `NameError` instead of
reporting and skipping the record. -/
theorem c4_first_record_error_crashes :
    nwcParseHalfLife nwcBadRecord.half_life = .error .paramError ∧
    nwcStep nwcInit nwcBadRecord = .crashed .nameError ∧
    nwcRun [nwcBadRecord] = none := by
  decide

set_option maxRecDepth 20000 in
/-- C6: the eV→time-unit conversion never multiplies.  For the
wallet-card half-life `"1.0 EV 0.5"` the unit is mapped to `as`, but the
value stays the raw token `"1.0"` (the `str * float` multiplication
raises `TypeError`, silently swallowed), not the claimed
`1.0 × 0.04562 = "0.04562"`. -/
theorem c6_ev_conversion_not_applied :
    nwcParseHalfLife (str "1.0 EV 0.5") =
      .ok ⟨.s (str "1.0"), .s (str "as"), .s (str "0.5"), .s (str "="),
           .b false⟩ ∧
    str "1.0" ≠ str "0.04562" := by
  decide

set_option maxRecDepth 20000 in
/-- C7: through the `Nubase12_2xml.py` pipeline (which lower-cases the
decay-modes column before `_parse_decay_modes` substitutes `le`/`ge` by
`≤`/`≥`), the substitution is effectively case-insensitive and happens
before relation-splitting: `"sf LE 5"` in any letter case parses to
relation `≤` with value `5`, and `GE` likewise yields `≥`. -/
theorem c7_le_ge_substitution :
    nb12ParseDecayModes (str "sf LE 5") =
      .ok [⟨.s (str "sf "), .s (str "≤"), .s (str "5"), .s (str "0")⟩] ∧
    nb12ParseDecayModes (str "sf le 5") =
      .ok [⟨.s (str "sf "), .s (str "≤"), .s (str "5"), .s (str "0")⟩] ∧
    nb12ParseDecayModes (str "SF Le 5") =
      .ok [⟨.s (str "sf "), .s (str "≤"), .s (str "5"), .s (str "0")⟩] ∧
    nb12ParseDecayModes (str "b- GE 40") =
      .ok [⟨.s (str "b- "), .s (str "≥"), .s (str "40"), .s (str "0")⟩] := by
  decide

set_option maxRecDepth 20000 in
/-- C5 (counterexample): the claim's "if and only if token[1] is a
member of the short-time or long-time unit set" is false.  `"1 stbl"`
trims and splits into the 2 tokens `["1", "stbl"]`, `"1"` is not a
keyword, `"stbl"` is in neither unit set of the claim — yet parsing
succeeds, because the code consults the `_short_time_units` dictionary,
whose keys also include the descriptive entries
`stbl, p-unst, n-unst, ?`. -/
theorem c5_descriptive_unit_counterexample :
    nbHalfLifeItems (str "1 stbl") = [str "1", str "stbl"] ∧
    str "1" ∉ [str "stbl", str "p-unst", str "n-unst"] ∧
    str "stbl" ∉ specUnitSet ∧
    nbParseHalfLife (str "1 stbl") =
      .ok ⟨.s (str "1"), .s (str "stbl"), .s (str "?"), .s (str "="),
           .b false⟩ := by
  decide

/-- C5 (amended): for every evaluator-style half-life string whose token
list (after trimming, `#`-handling and whitespace-splitting) has exactly
2 or 3 tokens with a non-keyword first token, parsing succeeds with
relation `=`, value `token[0]`, unit `token[1]` and uncertainty
`token[2]`-or-`"?"` **iff `token[1]` is a key of the
`_short_time_units` dictionary (which also contains the descriptive
entries `stbl`, `p-unst`, `n-unst`, `?`) or of the `_long_time_units`
dictionary**; any other unit fails with the unknown-unit
`ParameterError`. -/
theorem c5_unit_membership_amended (s v u : Str) (rest : List Str)
    (hitems : nbHalfLifeItems s = v :: u :: rest)
    (hlen : rest.length ≤ 1)
    (hv1 : v ≠ str "stbl") (hv2 : v ≠ str "p-unst") (hv3 : v ≠ str "n-unst") :
    ((∃ hl, nbParseHalfLife s = .ok hl) ↔
      ((dictGet shortTimeUnits u).isSome ∨ (dictGet longTimeUnits u).isSome)) ∧
    ((dictGet shortTimeUnits u).isSome = false ∧
        (dictGet longTimeUnits u).isSome = false →
      nbParseHalfLife s = .error .paramError) ∧
    (∀ hl, nbParseHalfLife s = .ok hl →
      hl = ⟨.s v, .s u,
            .s (match rest with | [] => str "?" | e :: _ => e),
            .s (str "="), .b (nbHalfLifeExtrap s)⟩) := by
  have hkw : ¬(v = str "stbl" ∨ v = str "p-unst" ∨ v = str "n-unst") := by
    rintro (h | h | h)
    · exact hv1 h
    · exact hv2 h
    · exact hv3 h
  rcases rest with _ | ⟨e, _ | ⟨e2, rest2⟩⟩
  · have hp : nbParseHalfLife s =
        (if (dictGet shortTimeUnits u).isNone ∧ (dictGet longTimeUnits u).isNone
         then .error .paramError
         else .ok ⟨.s v, .s u, .s (str "?"), .s (str "="),
                   .b (nbHalfLifeExtrap s)⟩) := by
      rw [nbParseHalfLife, hitems]
      simp only [nbHalfLifeFromItems]
      rw [if_neg hkw]
    cases hS : dictGet shortTimeUnits u <;> cases hL : dictGet longTimeUnits u <;>
      simp [hS, hL] at hp <;>
      refine ⟨?_, ?_, ?_⟩ <;> simp [hp, hS, hL]
  · have hp : nbParseHalfLife s =
        (if (dictGet shortTimeUnits u).isNone ∧ (dictGet longTimeUnits u).isNone
         then .error .paramError
         else .ok ⟨.s v, .s u, .s e, .s (str "="),
                   .b (nbHalfLifeExtrap s)⟩) := by
      rw [nbParseHalfLife, hitems]
      simp only [nbHalfLifeFromItems]
      rw [if_neg hkw]
    cases hS : dictGet shortTimeUnits u <;> cases hL : dictGet longTimeUnits u <;>
      simp [hS, hL] at hp <;>
      refine ⟨?_, ?_, ?_⟩ <;> simp [hp, hS, hL]
  · simp at hlen

set_option maxRecDepth 20000 in
/-- Witness for C5 (amended), at the spec's own examples: `"12.3 ms"`
succeeds (unit in the table) and `"12.3 Xy"` fails with the
unknown-unit error. -/
theorem c5_unit_membership_amended_witness :
    (∃ hl, nbParseHalfLife (str "12.3 ms") = .ok hl) ∧
    nbParseHalfLife (str "12.3 Xy") = .error .paramError := by
  have h1 := c5_unit_membership_amended (str "12.3 ms") (str "12.3")
    (str "ms") [] (by decide) (by decide) (by decide) (by decide) (by decide)
  have h2 := c5_unit_membership_amended (str "12.3 Xy") (str "12.3")
    (str "Xy") [] (by decide) (by decide) (by decide) (by decide) (by decide)
  exact ⟨h1.1.mpr (by decide), h2.2.1 (by decide)⟩

/-- `Except.ok a >>= f` computes `f a`. -/
theorem except_bind_ok {ε α β : Type} (a : α) (f : α → Except ε β) :
    (Except.ok a >>= f : Except ε β) = f a := rfl

/-- `Except.error e >>= f` stays the error. -/
theorem except_bind_error {ε α β : Type} (e : ε) (f : α → Except ε β) :
    ((Except.error e : Except ε α) >>= f : Except ε β) = .error e := rfl

/-- `pure` in the `Except` monad. -/
theorem except_pure {ε α : Type} (a : α) :
    (pure a : Except ε α) = .ok a := rfl

/-- Folding `add_decay_mode` over a list never touches `Z` or `A`. -/
theorem foldlM_addDecayMode_ZA :
    ∀ (ds : List DecayModeDict) (n n2 : Nuclide),
      ds.foldlM addDecayMode n = .ok n2 → n2.Z = n.Z ∧ n2.A = n.A := by
  intro ds
  induction ds with
  | nil =>
    intro n n2 h
    rw [List.foldlM_nil, except_pure] at h
    cases h
    exact ⟨rfl, rfl⟩
  | cons d ds ih =>
    intro n n2 h
    rw [List.foldlM_cons] at h
    cases hd : addDecayMode n d with
    | error e => rw [hd, except_bind_error] at h; cases h
    | ok n1 =>
      rw [hd, except_bind_ok] at h
      have h2 := ih n1 n2 h
      simp only [addDecayMode] at hd
      cases hc : checkDecayMode d with
      | error e => rw [hc, except_bind_error] at hd; cases hd
      | ok dm =>
        rw [hc, except_bind_ok, except_pure] at hd
        cases hd
        exact ⟨h2.1, h2.2⟩

/-- C9 (counterexample): the claimed invariant preservation fails for
the `Z` setter.  The dummy nuclide `Z=0, A=0` satisfies the invariant,
assigning `Z := 1` through the public setter succeeds (the setter only
checks `Z ≥ 0`, never re-examining `A`), and the resulting state has
`Z > 0` with `A = 0` — which the claim says is never reachable. -/
theorem c9_z_setter_breaks_invariant :
    ZAInvariant emptyNuclide ∧
    applyMutation emptyNuclide (.setZ (.i 1)) =
      .ok { emptyNuclide with Z := 1 } ∧
    ¬ ZAInvariant { emptyNuclide with Z := 1 } := by
  decide

/-- C9 (amended): every public mutation that succeeds preserves the
domain invariant `Z ≥ 0 ∧ (A ≥ 1 ∨ Z = 0)` — except that a `Z`
assignment needs the extra assumption `A ≥ 1`, because the `Z` setter
never re-examines `A`: assigning a positive `Z` to an entity with
`A ≤ 0` reaches the state `Z > 0, A = 0` the original claim excluded. -/
theorem c9_mutation_invariant_amended (n : Nuclide) (μ : Mutation)
    (n2 : Nuclide) (hInv : ZAInvariant n)
    (hA : match μ with | .setZ _ => 1 ≤ n.A | _ => True)
    (happ : applyMutation n μ = .ok n2) :
    ZAInvariant n2 := by
  obtain ⟨hZ, hA1⟩ := hInv
  cases μ with
  | setZ v =>
    have hA2 : 1 ≤ n.A := hA
    simp only [applyMutation, pySetZ] at happ
    split at happ
    · cases happ
    · split at happ
      · cases happ
      · next hlt =>
        cases happ
        exact ⟨by dsimp only; omega, Or.inl (by dsimp only; omega)⟩
  | setA v =>
    simp only [applyMutation, pySetA] at happ
    split at happ
    · cases happ
    · split at happ
      · cases happ
      · next hcond =>
        cases happ
        refine ⟨by dsimp only; omega, ?_⟩
        by_cases hz : n.Z = 0
        · exact Or.inr (by dsimp only; omega)
        · exact Or.inl (by dsimp only; omega)
  | setMassDefect d =>
    cases d with
    | none =>
      simp only [applyMutation, pySetMassDefect] at happ
      cases happ
      exact ⟨hZ, hA1⟩
    | some d =>
      simp only [applyMutation, pySetMassDefect] at happ
      cases hc : checkMassDefect d with
      | error e => rw [hc, except_bind_error] at happ; cases happ
      | ok md =>
        rw [hc, except_bind_ok, except_pure] at happ
        cases happ
        exact ⟨hZ, hA1⟩
  | setHalfLife d =>
    cases d with
    | none =>
      simp only [applyMutation, pySetHalfLife] at happ
      cases happ
      exact ⟨hZ, hA1⟩
    | some d =>
      simp only [applyMutation, pySetHalfLife] at happ
      cases hc : checkHalfLife d with
      | error e => rw [hc, except_bind_error] at happ; cases happ
      | ok hl =>
        rw [hc, except_bind_ok, except_pure] at happ
        cases happ
        exact ⟨hZ, hA1⟩
  | setGsSpin d =>
    cases d with
    | none =>
      simp only [applyMutation, pySetGsSpin] at happ
      cases happ
      exact ⟨hZ, hA1⟩
    | some d =>
      simp only [applyMutation, pySetGsSpin] at happ
      cases hc : checkGsSpin d with
      | error e => rw [hc, except_bind_error] at happ; cases happ
      | ok gs =>
        rw [hc, except_bind_ok, except_pure] at happ
        cases happ
        exact ⟨hZ, hA1⟩
  | setDecayModes ds =>
    simp only [applyMutation, pySetDecayModes] at happ
    cases ds with
    | none =>
      simp only [except_pure] at happ
      cases happ
      exact ⟨hZ, hA1⟩
    | some ds =>
      have h2 := foldlM_addDecayMode_ZA ds _ n2 happ
      exact ⟨by rw [h2.1]; exact hZ, by rw [h2.1, h2.2]; exact hA1⟩
  | addMode d =>
    simp only [applyMutation, addDecayMode] at happ
    cases hc : checkDecayMode d with
    | error e => rw [hc, except_bind_error] at happ; cases happ
    | ok dm =>
      rw [hc, except_bind_ok, except_pure] at happ
      cases happ
      exact ⟨hZ, hA1⟩
  | addIso d =>
    simp only [applyMutation, addIsomer] at happ
    split at happ
    · cases hc : checkHalfLife _ with
      | error e => rw [hc, except_bind_error] at happ; cases happ
      | ok hl =>
        rw [hc, except_bind_ok] at happ
        cases hm : List.mapM checkDecayMode _ with
        | error e => rw [hm, except_bind_error] at happ; cases happ
        | ok modes =>
          rw [hm, except_bind_ok, except_pure] at happ
          cases happ
          exact ⟨hZ, hA1⟩
    · cases happ
  | addIsoMode i d =>
    simp only [applyMutation, addIsomerDecayMode] at happ
    split at happ
    · cases happ
    · split at happ
      · split at happ
        · cases happ
          exact ⟨hZ, hA1⟩
        · cases happ
      · split at happ
        · cases happ
          exact ⟨hZ, hA1⟩
        · cases happ
  | setComment s =>
    simp only [applyMutation] at happ
    cases happ
    exact ⟨hZ, hA1⟩

/-- Witness for C9 (amended): assigning `Z := 5` to the well-formed ²H
entity (which has `A = 2 ≥ 1`) keeps the invariant. -/
theorem c9_mutation_invariant_amended_witness :
    ZAInvariant { nwcSampleEntity with Z := 5 } :=
  c9_mutation_invariant_amended nwcSampleEntity (.setZ (.i 5))
    { nwcSampleEntity with Z := 5 } (by decide) (by decide) (by decide)

/-- A list of complete decay-mode dictionaries maps through validation. -/
theorem mapM_checkDecayMode_ok :
    ∀ (ds : List DecayModeDict), ds.all decayDictFull = true →
      ∃ l, ds.mapM checkDecayMode = .ok l := by
  intro ds
  induction ds with
  | nil => intro h; exact ⟨[], rfl⟩
  | cons d ds ih =>
    intro h
    rw [List.all_cons, Bool.and_eq_true] at h
    obtain ⟨l, hl⟩ := ih h.2
    have hd : ∃ dm, checkDecayMode d = .ok dm := by
      have h1 := h.1
      simp only [decayDictFull, Bool.and_eq_true, Option.isSome_iff_exists] at h1
      obtain ⟨⟨⟨⟨m, hm⟩, ⟨r, hr⟩⟩, ⟨v, hv⟩⟩, ⟨u, hu⟩⟩ := h1
      exact ⟨⟨m, r, v, u⟩, by simp only [checkDecayMode, hm, hr, hv, hu]⟩
    obtain ⟨dm, hdm⟩ := hd
    refine ⟨dm :: l, ?_⟩
    rw [List.mapM_cons, hdm]
    simp only [except_bind_ok]
    rw [hl]
    rfl

/-- Serializing an isomer list containing a comment-less isomer fails
with `KeyError` (its only possible failure). -/
theorem mapM_isomerElem_keyError :
    ∀ (l : List Isomer), (∃ iso ∈ l, iso.comment = none) →
      l.mapM isomerElem = .error .keyError := by
  intro l
  induction l with
  | nil => rintro ⟨iso, h, _⟩; cases h
  | cons a l ih =>
    rintro ⟨iso, hmem, hnone⟩
    rw [List.mapM_cons]
    cases ha : a.comment with
    | none =>
      have : isomerElem a = .error .keyError := by
        simp only [isomerElem, ha]
      rw [this, except_bind_error]
    | some c =>
      have : isomerElem a = .ok ((isomerElem a).toOption.getD (.text [])) := by
        simp only [isomerElem, ha]
        rfl
      rw [this, except_bind_ok]
      have hmem2 : iso ∈ l := by
        rcases List.mem_cons.mp hmem with h | h
        · subst h; rw [ha] at hnone; cases hnone
        · exact h
      rw [ih ⟨iso, hmem2, hnone⟩]
      rfl

/-- An in-table atomic number resolves to an element symbol. -/
theorem elementOf_ok (Z : ℤ) (h0 : 0 ≤ Z) (h1 : Z < 121) :
    ∃ e, elementOf Z = .ok e := by
  have hlen : elementTable.length = 121 := rfl
  have hnot : ¬ Z < 0 := by omega
  simp only [elementOf, pyIndex]
  rw [if_neg hnot, if_pos h0]
  cases hg : elementTable.get? Z.toNat with
  | none =>
    rw [List.get?_eq_none] at hg
    omega
  | some a => exact ⟨a, rfl⟩

/-- C10: `add_isomer` accepts any isomer dictionary that carries the
keys `energy, uncertainity, extrapolated, half_life, decay_modes` (with
their nested required keys) even when `comment` is absent — the
validator never checks `comment` — and serializing an entity holding
such an isomer then fails with the uncaught `KeyError` from reading the
isomer's comment.  Validation therefore does not guarantee that a
validated entity is serializable. -/
theorem c10_isomer_without_comment (n : Nuclide) (d : IsomerDict)
    (hkeys : isomerDictRequiredKeys d = true)
    (hcomment : d.comment = none)
    (hZlo : 0 ≤ n.Z) (hZhi : n.Z < 121) :
    ∃ n2, addIsomer n d = .ok n2 ∧
      n2.isomers.map Isomer.comment =
        n.isomers.map Isomer.comment ++ [none] ∧
      buildNuclideXml n2 = .error .keyError := by
  simp only [isomerDictRequiredKeys, Bool.and_eq_true] at hkeys
  obtain ⟨⟨⟨⟨hen, hun⟩, hex⟩, hhl⟩, hdm⟩ := hkeys
  obtain ⟨en, hen⟩ := Option.isSome_iff_exists.mp hen
  obtain ⟨un, hun⟩ := Option.isSome_iff_exists.mp hun
  obtain ⟨ex, hex⟩ := Option.isSome_iff_exists.mp hex
  cases hhl2 : d.half_life with
  | none => rw [hhl2] at hhl; cases hhl
  | some h =>
    rw [hhl2] at hhl
    cases hds : d.decay_modes with
    | none => rw [hds] at hdm; cases hdm
    | some ds =>
      rw [hds] at hdm
      have hhlok : ∃ hl, checkHalfLife h = .ok hl := by
        simp only [halfLifeDictFull, Bool.and_eq_true,
          Option.isSome_iff_exists] at hhl
        obtain ⟨⟨⟨⟨⟨v, hv⟩, ⟨u2, hu2⟩⟩, ⟨uc, huc⟩⟩, ⟨r, hr⟩⟩, ⟨e2, he2⟩⟩ := hhl
        exact ⟨⟨v, u2, uc, r, e2⟩, by
          simp only [checkHalfLife, hv, hu2, huc, hr, he2]⟩
      obtain ⟨hl, hhlok⟩ := hhlok
      obtain ⟨modes, hmodes⟩ := mapM_checkDecayMode_ok ds hdm
      have haddIso : addIsomer n d =
          .ok { n with isomers :=
            n.isomers ++ [⟨en, un, ex, hl, modes, d.comment⟩] } := by
        simp only [addIsomer, hen, hun, hex, hhl2, hds]
        rw [hhlok, except_bind_ok, hmodes, except_bind_ok, except_pure]
      refine ⟨_, haddIso, ?_, ?_⟩
      · simp [hcomment]
      · obtain ⟨el, hel⟩ := elementOf_ok n.Z hZlo hZhi
        have hlabel : nuclideLabel
            { n with isomers :=
              n.isomers ++ [⟨en, un, ex, hl, modes, d.comment⟩] } =
            .ok (intToStr n.A ++ el) := by
          simp only [nuclideLabel]
          rw [hel, except_bind_ok]
          rfl
        have hiso : ({ n with isomers :=
              n.isomers ++ [⟨en, un, ex, hl, modes, d.comment⟩] } :
              Nuclide).isomers.mapM isomerElem = .error .keyError := by
          apply mapM_isomerElem_keyError
          exact ⟨⟨en, un, ex, hl, modes, d.comment⟩,
            by simp, by simp [hcomment]⟩
        simp only [buildNuclideXml]
        rw [hel, except_bind_ok, hlabel, except_bind_ok, hiso,
          except_bind_error]

set_option maxRecDepth 20000 in
/-- Witness for C10: the comment-less isomer dictionary validates onto
the ²H entity, and serializing the result raises `KeyError`. -/
theorem c10_isomer_without_comment_witness :
    addIsomer nwcSampleEntity noCommentIsomerDict = .ok noCommentResult ∧
    buildNuclideXml noCommentResult = .error .keyError := by
  obtain ⟨n2, h1, h2, h3⟩ :=
    c10_isomer_without_comment nwcSampleEntity noCommentIsomerDict
      (by decide) (by decide) (by decide) (by decide)
  have hconc : addIsomer nwcSampleEntity noCommentIsomerDict =
      .ok noCommentResult := by decide
  rw [hconc] at h1
  cases h1
  exact ⟨hconc, h3⟩

/-- A `try`-block run for a non-isomer record that completes leaves a
created isotope in hand. -/
theorem nwcTryBody_done_isotope (st : NwcState) (r : NwcRecord)
    (modes : List DecayModeDict) (dmVar : Option DecayModeDict) (same : Bool)
    (f : Bool) (d : List Nuclide) (i : Option Nuclide)
    (hIso : r.isomer = false)
    (h : nwcTryBody st r modes dmVar same = .done f d i) :
    ∃ iso, i = some iso := by
  simp only [nwcTryBody, hIso] at h
  split at h
  · -- same ∧ ¬isomer
    split at h
    · cases h
    · cases h
    · split at h
      · cases h; exact ⟨_, rfl⟩
      · cases h
  · split at h
    · -- same ∧ isomer: impossible
      next hcond => simp at hcond
    · split at h
      · next hcond => simp at hcond
      · split at h
        · next hcond => simp at hcond
        · -- new isotope
          split at h
          · cases h
          · split at h
            · cases h
            · cases h; exact ⟨_, rfl⟩

/-- A loop iteration that finishes without an exception updates
`previous` to the record's identity snapshot and, for a non-isomer
record, leaves `isotope` assigned. -/
theorem nwcStep_clean (st : NwcState) (r : NwcRecord) (st2 : NwcState)
    (h : nwcStep st r = .continued st2 true) :
    st2.previous = nwcSnapshot r ∧
    (r.isomer = false → ∃ iso, st2.isotope = some iso) := by
  simp only [nwcStep] at h
  split at h
  · cases h
  · -- build modes ok
    split at h
    · -- tryBody done
      next htb =>
      cases h
      refine ⟨rfl, fun hIso => ?_⟩
      exact nwcTryBody_done_isotope _ _ _ _ _ _ _ _ hIso htb
    · -- tryBody raised
      split at h
      · split at h
        · cases h
        · cases h
      · cases h
      · cases h


/-- C3: for two consecutive wallet-card records that are both not
isomer-flagged and agree on the identity snapshot
(A, Z, mass-defect fields, half-life string), the merger appends the
second record's decay mode to the current entity's `decay_modes` list:
`data` is unchanged (no entity is finalized, no second entity starts),
the current isotope gains exactly the validated decay mode of the second
record, and the iteration completes cleanly. -/
theorem c3_same_identity_appends_decay_mode (st0 : NwcState) (r1 r2 : NwcRecord) (st1 : NwcState)
    (h1 : nwcStep st0 r1 = .continued st1 true)
    (hIso1 : r1.isomer = false) (hIso2 : r2.isomer = false)
    (hsnap : nwcSnapshot r2 = nwcSnapshot r1)
    (hdm : r2.d_mode ≠ [])
    (habn : 0 < r2.abundance.length → pySplitWs r2.abundance ≠ []) :
    ∃ iso, st1.isotope = some iso ∧
      nwcStep st1 r2 = .continued
        ⟨st1.first, st1.data, nwcSnapshot r2,
         some { iso with decay_modes := iso.decay_modes ++ [nwcDecayRec r2] },
         some (nwcDecayDict r2)⟩ true := by
  obtain ⟨hprev, hiso⟩ := nwcStep_clean st0 r1 st1 h1
  obtain ⟨iso, hisoeq⟩ := hiso hIso1
  obtain ⟨f1, d1, p1, i1, dm1⟩ := st1
  simp only at hprev hisoeq
  subst hprev
  subst hisoeq
  refine ⟨iso, rfl, ?_⟩
  have hdmlen : 0 < r2.d_mode.length := List.length_pos.mpr hdm
  have hbm : ∃ modes2, nwcBuildModes r2 dm1 =
      .ok (modes2, some (nwcDecayDict r2)) := by
    have hbase : ∃ b, (if 0 < r2.abundance.length then
        (nwcStableData r2.abundance).map (fun sd => [sd])
      else .ok []) = Except.ok b := by
      by_cases ha : 0 < r2.abundance.length
      · rw [if_pos ha]
        cases hsd : nwcStableData r2.abundance with
        | error e =>
          simp only [nwcStableData] at hsd
          cases hsp : pySplitWs r2.abundance with
          | nil => exact absurd hsp (habn ha)
          | cons a0 rest => rw [hsp] at hsd; cases hsd
        | ok sd => exact ⟨[sd], by simp [hsd, Except.map]⟩
      · exact ⟨[], by rw [if_neg ha]⟩
    obtain ⟨b, hbase⟩ := hbase
    refine ⟨b ++ [nwcDecayDict r2], ?_⟩
    simp only [nwcBuildModes, hbase]
    rw [if_pos hdmlen]
    simp
  obtain ⟨modes2, hbm⟩ := hbm
  have hsame : decide (nwcSnapshot r2 = nwcSnapshot r1) = true := by
    simp [hsnap]
  have hadd : addDecayMode iso (nwcDecayDict r2) =
      .ok { iso with decay_modes := iso.decay_modes ++ [nwcDecayRec r2] } := rfl
  simp only [nwcStep, hbm, hsame]
  simp only [nwcTryBody, hIso2, hadd]
  simp

set_option maxRecDepth 40000 in
/-- Witness for C3: the two concrete ²H records with equal identity
snapshots merge into one entity with the second decay mode appended. -/
theorem c3_same_identity_appends_decay_mode_witness :
    nwcStep nwcSampleState nwcSampleRecord2 = .continued
      ⟨nwcSampleState.first, nwcSampleState.data,
       nwcSnapshot nwcSampleRecord2,
       some { nwcSampleEntity with decay_modes :=
         nwcSampleEntity.decay_modes ++ [nwcDecayRec nwcSampleRecord2] },
       some (nwcDecayDict nwcSampleRecord2)⟩ true := by
  obtain ⟨iso, hiso, hstep⟩ :=
    c3_same_identity_appends_decay_mode nwcInit nwcSampleRecord nwcSampleRecord2 nwcSampleState
      (by decide) (by decide) (by decide) (by decide) (by decide) (by decide)
  have h2 : some nwcSampleEntity = some iso := by
    rw [← hiso]; decide
  cases h2
  exact hstep

/-- `isPrefixOf` is reflexive. -/
theorem isPrefixOf_self : ∀ (l : Str), l.isPrefixOf l = true := by
  intro l
  induction l with
  | nil => rfl
  | cons c cs ih => simp only [List.isPrefixOf, ih, beq_self_eq_true, Bool.and_self]

/-- `replace` leaves a string without the pattern unchanged (worker). -/
theorem replaceSubF_of_not_contains (pat rep : Str) :
    ∀ (fuel : Nat) (l : Str), containsSub pat l = false →
      replaceSubF pat rep fuel l = l := by
  intro fuel
  induction fuel with
  | zero => intro l h; rfl
  | succ fuel ih =>
    intro l h
    cases l with
    | nil => rfl
    | cons c cs =>
      simp only [containsSub, Bool.or_eq_false_iff] at h
      simp only [replaceSubF]
      rw [if_neg]
      · rw [ih cs h.2]
      · rintro ⟨hne, hpre⟩
        rw [h.1] at hpre
        cases hpre

/-- `s.replace(pat, rep)` is the identity when `pat` does not occur. -/
theorem replaceSub_of_not_contains (pat rep l : Str)
    (h : containsSub pat l = false) : replaceSub pat rep l = l :=
  replaceSubF_of_not_contains pat rep l.length l h

/-- A substring of the right part is a substring of the whole. -/
theorem containsSub_append_of_right (pat t : Str)
    (h : containsSub pat t = true) :
    ∀ m : Str, containsSub pat (m ++ t) = true := by
  intro m
  induction m with
  | nil => simpa using h
  | cons c m ih =>
    have hstep : containsSub pat ((c :: m) ++ t) =
        (pat.isPrefixOf (c :: (m ++ t)) || containsSub pat (m ++ t)) := rfl
    rw [hstep, ih, Bool.or_true]

/-- `s.split(sep)` on a separator-free string yields one part. -/
theorem pySplitOn_no_sep (sep : Char) :
    ∀ (l : Str), (∀ c ∈ l, c ≠ sep) → pySplitOn sep l = [l] := by
  intro l
  induction l with
  | nil => intro h; rfl
  | cons c cs ih =>
    intro h
    simp only [pySplitOn]
    rw [if_neg (h c (by simp)), ih (fun d hd => h d (by simp [hd]))]

/-- `dropWhile` keeps every element the predicate rejects. -/
theorem mem_dropWhile_of_neg (p : Char → Bool) :
    ∀ (l : Str) (c : Char), c ∈ l → p c = false → c ∈ l.dropWhile p := by
  intro l
  induction l with
  | nil => intro c hc _; cases hc
  | cons a tl ih =>
    intro c hc hpc
    by_cases hpa : p a = true
    · rw [List.dropWhile_cons_of_pos hpa]
      rcases List.mem_cons.mp hc with h | h
      · subst h; rw [hpc] at hpa; cases hpa
      · exact ih c h hpc
    · rw [List.dropWhile_cons_of_neg hpa]
      exact hc

/-- `strip` keeps every non-whitespace character. -/
theorem mem_pyStrip (l : Str) (c : Char) (hc : c ∈ l)
    (hw : isWs c = false) : c ∈ pyStrip l := by
  unfold pyStrip stripLeftWs
  apply mem_dropWhile_of_neg _ _ _ _ hw
  rw [List.mem_reverse]
  apply mem_dropWhile_of_neg _ _ _ _ hw
  rw [List.mem_reverse]
  exact hc

/-- The replace worker on the empty subject. -/
theorem replaceSubF_nil_subject (pat rep : Str) :
    ∀ fuel, replaceSubF pat rep fuel [] = [] := by
  intro fuel
  cases fuel with
  | zero => rfl
  | succ f => rfl

/-- Replacing `" ?"` by `"=?"` in `m ++ " ?"` rewrites exactly the
final occurrence when `m` itself contains no `" ?"`. -/
theorem replaceSub_q_boundary :
    ∀ (m : Str) (fuel : Nat), (m ++ str " ?").length ≤ fuel →
      containsSub (str " ?") m = false →
      replaceSubF (str " ?") (str "=?") fuel (m ++ str " ?") =
        m ++ str "=?" := by
  intro m
  induction m with
  | nil =>
    intro fuel hlen h
    cases fuel with
    | zero => exact absurd hlen (by decide)
    | succ f =>
      rw [List.nil_append, List.nil_append]
      have hpq : str " ?" = ' ' :: ['?'] := rfl
      rw [hpq]
      simp only [replaceSubF]
      rw [if_pos (by decide)]
      rw [show (['?'] : Str).drop ((' ' :: ['?'] : Str).length - 1) = [] from rfl]
      rw [replaceSubF_nil_subject]
      rfl
  | cons c m' ih =>
    intro fuel hlen h
    cases fuel with
    | zero => simp at hlen
    | succ f =>
      rw [List.cons_append]
      simp only [replaceSubF]
      simp only [containsSub, Bool.or_eq_false_iff] at h
      rw [if_neg]
      · rw [List.cons_append, ih f (by simpa using hlen) h.2]
      · rintro ⟨-, hpre⟩
        cases m' with
        | nil =>
          simp only [List.nil_append] at hpre
          simp [List.isPrefixOf] at hpre
        | cons d m'' =>
          simp only [List.cons_append, List.isPrefixOf, Bool.and_eq_true,
            beq_iff_eq] at hpre
          obtain ⟨hc, hd, -⟩ := hpre
          subst hc
          subst hd
          simp [List.isPrefixOf] at h

/-- Relation-splitting `m ++ "=?"` for a relation-free mode `m` yields
exactly the three parts `[m, "=", "?"]`. -/
theorem reSplitRel_append_eq :
    ∀ (m : Str), (∀ c ∈ m, isRel c = false) →
      reSplitRel (m ++ str "=?") = [m, str "=", str "?"] := by
  intro m
  induction m with
  | nil => decide
  | cons c m' ih =>
    intro h
    rw [List.cons_append]
    simp only [reSplitRel]
    rw [if_neg (by simp [h c (by simp)])]
    rw [ih (fun d hd => h d (by simp [hd]))]

/-- C8: for every decay-mode expression of the form `"<mode> ?"` (a
space before the question mark, no `=` anywhere, and a mode free of
relation characters, `;`, `le`/`ge` and `" ?"`), the parser rewrites it
to `"<mode>=?"` before relation-splitting, and the expression yields the
single entry with that mode, relation `=`, value `?`, and uncertainty
defaulting to the literal `0`. -/
theorem c8_question_mark_rewrite (m : Str)
    (hrel : ∀ c ∈ m, isRel c = false)
    (hsemi : (';' : Char) ∉ m)
    (hle : containsSub (str "le") (m ++ str " ?") = false)
    (hge : containsSub (str "ge") (m ++ str " ?") = false)
    (hq : containsSub (str " ?") m = false) :
    nbParseDecayModes (m ++ str " ?") =
      .ok [⟨.s m, .s (str "="), .s (str "?"), .s (str "0")⟩] := by
  have hle2 : replaceSub (str "le") (str "≤") (m ++ str " ?") = m ++ str " ?" :=
    replaceSub_of_not_contains _ _ _ hle
  have hge2 : replaceSub (str "ge") (str "≥") (m ++ str " ?") = m ++ str " ?" :=
    replaceSub_of_not_contains _ _ _ hge
  have hq1 : ('?' : Char) ∈ m ++ str " ?" :=
    List.mem_append_right m (by decide)
  have hstrip : ¬ (pyStrip (m ++ str " ?")).length = 0 := by
    intro h0
    rw [List.length_eq_zero] at h0
    have hmem := mem_pyStrip (m ++ str " ?") '?' hq1 (by decide)
    rw [h0] at hmem
    cases hmem
  have hsplit : pySplitOn ';' (m ++ str " ?") = [m ++ str " ?"] := by
    apply pySplitOn_no_sep
    intro c hc
    rcases List.mem_append.mp hc with h | h
    · intro he; subst he; exact hsemi h
    · intro he; subst he; exact absurd h (by decide)
  have hitem : nbParseDecayItem (m ++ str " ?") =
      .ok ⟨.s m, .s (str "="), .s (str "?"), .s (str "0")⟩ := by
    have hcontains : containsSub (str " ?") (m ++ str " ?") = true :=
      containsSub_append_of_right _ _ (by decide) m
    have hcount : (m ++ str " ?").count '=' = 0 := by
      rw [List.count_append]
      have h1 : m.count '=' = 0 := by
        rw [List.count_eq_zero]
        intro hmem
        have := hrel '=' hmem
        simp [isRel] at this
      rw [h1, show (str " ?").count '=' = 0 from by decide]
    have hrw : replaceSub (str " ?") (str "=?") (m ++ str " ?") =
        m ++ str "=?" :=
      replaceSub_q_boundary m (m ++ str " ?").length (le_refl _) hq
    simp only [nbParseDecayItem]
    rw [if_pos ⟨hcontains, hcount⟩, hrw, reSplitRel_append_eq m hrel]
    rfl
  simp only [nbParseDecayModes, hle2, hge2]
  rw [if_neg hstrip, hsplit]
  rw [show ([m ++ str " ?"].mapM nbParseDecayItem : Except PyErr (List DecayMode)) =
    nbParseDecayItem (m ++ str " ?") >>= fun dm => pure [dm] from rfl]
  rw [hitem, except_bind_ok, except_pure]

/-- Witness for C8, at the spec's example `"A ?"`. -/
theorem c8_question_mark_rewrite_witness :
    nbParseDecayModes (str "A" ++ str " ?") =
      .ok [⟨.s (str "A"), .s (str "="), .s (str "?"), .s (str "0")⟩] :=
  c8_question_mark_rewrite (str "A") (by decide) (by decide) (by decide)
    (by decide) (by decide)

end Drawer
